import Mathlib

/-!
# Verification of the ReImproveJS reinforcement-learning agent

A shallow embedding of `src/lib/agent.ts`: the decision/learning loop of a
temporal-difference agent (epsilon-greedy action selection with decay,
temporal-window frame encoding, experience mementos, batched replay).

Modelling conventions:
* Numbers are rationals (`ℚ`): the JS arithmetic is modelled exactly.
* A tensor of shape `[1, n]` (the only shape the agent builds, besides the
  empty `tensor([])`) is modelled as its flat feature row `List ℚ`;
  concatenation along axis 1 is list append, `clone` is the identity of a
  pure value, and a batch built by axis-0 concatenation is a `List Tensor`
  of rows.
* The two sources of nondeterminism in `forward` — the uniform draw
  `random(0, 1, true)` and the model's `randomOutput()` — are passed in as
  explicit oracle arguments.
* The asynchronous `Model.fit` dispatch is modelled as a returned `FitCall`
  event; the resolution of the promise is a separate function
  (`applyFitResolution`) applied later, so dispatch-time state and
  resolution-time state are distinguished.
* Counters (`age`, `forwardPasses`) and sizes are `Nat`.
* The JS `new Array(n)` of holes is modelled as `n` default-valued slots;
  no verified property reads an uninitialised slot.
* A thrown JS exception is an `Except.error`.

The classes `Model`, `Memory` (ExperienceStore) and `TypedWindow`
(BoundedStatWindow) live outside `src/` and are modelled from the spec
where noted.
-/

namespace ReImprove

/-- A `[1, n]` tensor, modelled as its flat feature row. -/
abbrev Tensor := List ℚ

/-- A transition record (`Memento` of `src/lib/memory.ts`, shape given by
the spec's data model: `{action, reward, state, nextState}`). -/
structure Memento where
  action : Nat
  reward : ℚ
  state : Tensor
  nextState : Tensor
  deriving Repr, DecidableEq

/-- Interface `LearningConfig` of `agent.ts` (all fields present; `epsilon` is the
mutable one, carried inside the agent state like the source's shared
config object). -/
structure LearningConfig where
  gamma : ℚ
  epsilon : ℚ
  epsilonDecay : ℚ
  epsilonMin : ℚ
  learningRate : ℚ
  learningTime : Nat
  learningStepsRandom : Nat
  deriving Repr, DecidableEq

/-- Interface `AgentConfig` of `agent.ts`. -/
structure AgentConfig where
  memorySize : Nat
  batchSize : Nat
  temporalWindow : Nat
  learningConfig : LearningConfig
  deriving Repr, DecidableEq

/-- Interface `TrackingInformation` of `agent.ts`. -/
structure TrackingInformation where
  age : Nat
  forwardPasses : Nat
  learning : Bool
  averageLoss : ℚ
  averageReward : ℚ
  deriving Repr, DecidableEq

/-- Constant `MEM_WINDOW_MIN_SIZE` of `agent.ts`. -/
def MEM_WINDOW_MIN_SIZE : Nat := 2

/-- Constant `HIST_WINDOW_SIZE` of `agent.ts`. -/
def HIST_WINDOW_SIZE : Nat := 1000

/-- Constant `HIST_WINDOW_MIN_SIZE` of `agent.ts`. -/
def HIST_WINDOW_MIN_SIZE : Nat := 10

/-- The `TypedWindow` of `src/lib/window.ts` (the spec's BoundedStatWindow);
that file is not under `src/`, so its state is modelled from the spec:
capacity `maxSize`, minimum-sample threshold `minSize`, an ordered sample
sequence. -/
structure TypedWindow where
  maxSize : Nat
  minSize : Nat
  values : List ℚ
  deriving Repr, DecidableEq

/-- Modelled from the spec: `TypedWindow.add` appends a sample, evicting
the oldest once `maxSize` is exceeded (strict FIFO, §4.1). -/
def TypedWindow.add (w : TypedWindow) (v : ℚ) : TypedWindow :=
  let vs := w.values ++ [v]
  { w with values := if w.maxSize < vs.length then vs.drop (vs.length - w.maxSize) else vs }

/-- The `Memory` of `src/lib/memory.ts` (the spec's ExperienceStore); that
file is not under `src/`, so its state is modelled from the spec:
a fixed-capacity store of transitions (§6). -/
structure Memory where
  memorySize : Nat
  mementos : List Memento
  deriving Repr, DecidableEq

/-- Modelled from the spec: `remember(memento)` stores a transition in a
store of maximum capacity `memorySize`, the oldest being evicted at
capacity (§3: fixed-capacity container, eviction of the oldest). -/
def Memory.remember (mem : Memory) (m : Memento) : Memory :=
  let ms := mem.mementos ++ [m]
  { mem with mementos := if mem.memorySize < ms.length then ms.drop (ms.length - mem.memorySize) else ms }

/-- Accessor `Memory.Length`: the current stored count (spec §6). -/
def Memory.length (mem : Memory) : Nat := mem.mementos.length

/-- Modelled from the spec: `sample(batchSize)` returns a sequence of
mementos from the store, of length at most the current store size (§6);
the sampling policy is delegated to the store, modelled here as the first
`n` stored transitions. -/
def Memory.sample (mem : Memory) (n : Nat) : List Memento :=
  mem.mementos.take n

/-- The maximum of a predicted value vector ("maxOverActions", spec §4.5):
the semantics, modelled from the spec, of `getHighestValue()` on the
result of `Model.predict` as used by the Bellman target. -/
def listMax : List ℚ → ℚ
  | [] => 0
  | x :: xs => xs.foldl max x

/-- The argmax index of a predicted value vector: the semantics, modelled
from the spec (§6, `highestValueAction()`), of the action chosen by the
greedy policy. First index attaining the maximum. -/
def argmaxIdx (l : List ℚ) : Nat :=
  (l.foldl
    (fun acc v =>
      if acc.2.2 < v then (acc.1 + 1, acc.1 + 1, v) else (acc.1 + 1, acc.2.1, acc.2.2))
    ((0 : Nat), (0 : Nat), l.headD 0)).2.1

/-- The external `Model` collaborator (spec §1, §6): a value estimator
exposing `predict` (full value vector) and its action-space size
`OutputSize`. `randomOutput()` is nondeterministic and is supplied as an
oracle argument at each use site; `fit` is modelled as a dispatched
`FitCall` event. -/
structure Model where
  outputSize : Nat
  predict : Tensor → List ℚ

/-- The payload of one dispatched `Model.fit` call. -/
structure FitCall where
  x : List Tensor
  y : List Tensor
  epochs : Nat
  stepsPerEpoch : Nat
  deriving Repr, DecidableEq

/-- The value an asynchronous fit resolves to: `{history: {loss: [...]}}`. -/
structure FitResult where
  loss : List ℚ
  deriving Repr, DecidableEq

/-- The observable effects of one `backward` call: the memento handed to
`Memory.remember` (if any) and the fit dispatched by `replay` (if any). -/
structure BackwardEvents where
  remembered : Option Memento
  fitCall : Option FitCall
  deriving Repr, DecidableEq

/-- The whole mutable state of an `Agent`, together with its collaborators. -/
structure AgentState where
  model : Model
  config : AgentConfig
  done : Bool
  track : TrackingInformation
  currentReward : ℚ
  actionsBuffer : List Nat
  statesBuffer : List Tensor
  inputsBuffer : List Tensor
  rewardsHistory : TypedWindow
  lossesHistory : TypedWindow
  netInputWindowSize : Nat
  memory : Memory

/-- The `Agent` constructor (`agent.ts` lines 49-61). `new Array(n)` is a
length-`n` array of holes, modelled as `n` default slots. -/
def initAgent (model : Model) (config : AgentConfig) : AgentState :=
  let n := max config.temporalWindow MEM_WINDOW_MIN_SIZE
  { model := model
    config := config
    done := false
    track := { age := 0, forwardPasses := 0, learning := true, averageLoss := 0, averageReward := 0 }
    currentReward := 0
    actionsBuffer := List.replicate n 0
    statesBuffer := List.replicate n []
    inputsBuffer := List.replicate n []
    rewardsHistory := { maxSize := HIST_WINDOW_SIZE, minSize := HIST_WINDOW_MIN_SIZE, values := [] }
    lossesHistory := { maxSize := HIST_WINDOW_SIZE, minSize := HIST_WINDOW_MIN_SIZE, values := [] }
    netInputWindowSize := n
    memory := { memorySize := config.memorySize, mementos := [] } }

/-- The one-hot row built inside `createNeuralNetInput`:
`range(0, OutputSize).map(val => val == action ? 1.0 : 0.0)`. -/
def oneHotRow (outputSize : Nat) (action : Nat) : Tensor :=
  (List.range outputSize).map (fun v => if v = action then (1 : ℚ) else 0)

/-- Method `Agent.createNeuralNetInput` (`agent.ts` lines 63-77): clone the
current observation, then for `i = 0 .. temporalWindow-1` concatenate the
state stored at position `netInputWindowSize - 1 - i` followed by the
one-hot row of the action stored at the same position, along axis 1. -/
def createNeuralNetInput (s : AgentState) (input : Tensor) : Tensor :=
  (List.range s.config.temporalWindow).foldl
    (fun finalInput i =>
      finalInput
        ++ s.statesBuffer.getD (s.netInputWindowSize - 1 - i) []
        ++ oneHotRow s.model.outputSize (s.actionsBuffer.getD (s.netInputWindowSize - 1 - i) 0))
    input

/-- Method `Agent.policy` (`agent.ts` lines 79-81): the action of highest
predicted value. -/
def policy (s : AgentState) (input : Tensor) : Nat :=
  argmaxIdx (s.model.predict input)

/-- Method `Agent.forward` (`agent.ts` lines 83-121), with the uniform draw `r`
(`random(0, 1, true)`) and the model's `randomOutput()` value `randomAction`
supplied as oracles. Returns the chosen action and the updated state. -/
def forward (s : AgentState) (input : Tensor) (r : ℚ) (randomAction : Nat) :
    Nat × AgentState :=
  let s := { s with track.forwardPasses := s.track.forwardPasses + 1 }
  let lc := s.config.learningConfig
  let s :=
    if s.track.age < lc.learningTime then
      if lc.learningStepsRandom < s.track.age ∧ lc.epsilonMin < lc.epsilon then
        { s with config.learningConfig.epsilon := lc.epsilon * lc.epsilonDecay }
      else s
    else s
  let actionNet : Nat × Tensor :=
    if s.config.temporalWindow < s.track.forwardPasses then
      let netInput := createNeuralNetInput s input
      if r < s.config.learningConfig.epsilon then
        (randomAction, netInput)
      else
        (policy s netInput, netInput)
    else
      (randomAction, ([] : Tensor))
  let action := actionNet.1
  let netInput := actionNet.2
  let s :=
    { s with
      actionsBuffer := s.actionsBuffer.drop 1 ++ [action]
      statesBuffer := s.statesBuffer.drop 1 ++ [input]
      inputsBuffer := s.inputsBuffer.drop 1 ++ [netInput] }
  (action, s)

/-- Method `Agent.createInOutFromMemento` (`agent.ts` lines 157-166). The final
`tensor2d(future_target, [1, 3])` reshapes the label row to `[1, 3]`,
which on the flat-row model is the row itself. JS assignment
`future_target[action] = target` at an in-range index is `List.set`. -/
def createInOutFromMemento (s : AgentState) (memento : Memento) : Tensor × Tensor :=
  let target := memento.reward
  let target :=
    if !s.done then
      memento.reward +
        s.config.learningConfig.gamma * listMax (s.model.predict memento.nextState)
    else target
  let future_target := s.model.predict memento.state
  (memento.state, future_target.set memento.action target)

/-- Method `Agent.replay` (`agent.ts` lines 143-155): sample `batchSize`
mementos, map each to a training pair, reduce by concatenation (axis 0 on
the `[1, n]` pairs, i.e. appending batch rows; JS `reduce` with no initial
value throws on an empty array), dispatch one fit with
`{epochs: 1, stepsPerEpoch: 1}`, then `setReward(0)`. The dispatched fit
is returned as an event; nothing of its later resolution is applied here. -/
def replay (s : AgentState) : Except String (AgentState × FitCall) :=
  let pairs :=
    (s.memory.sample s.config.batchSize).map
      (fun memento =>
        let p := createInOutFromMemento s memento
        (([p.1] : List Tensor), ([p.2] : List Tensor)))
  match pairs with
  | [] => Except.error "Reduce of empty array with no initial value"
  | p :: ps =>
    let trainData := ps.foldl (fun prev cur => (prev.1 ++ cur.1, prev.2 ++ cur.2)) p
    Except.ok
      ({ s with currentReward := 0 },
       { x := trainData.1, y := trainData.2, epochs := 1, stepsPerEpoch := 1 })

/-- The experience memento constructed by `Agent.backward` (`agent.ts`
lines 131-136): `action` from position `netInputWindowSize -
MEM_WINDOW_MIN_SIZE` of the action buffer, `reward` the currently
accumulated reward, `state`/`nextState` the encoded inputs at positions
`netInputWindowSize - MEM_WINDOW_MIN_SIZE` and `netInputWindowSize - 1`. -/
def backwardMemento (s : AgentState) : Memento :=
  { action := s.actionsBuffer.getD (s.netInputWindowSize - MEM_WINDOW_MIN_SIZE) 0
    reward := s.currentReward
    state := s.inputsBuffer.getD (s.netInputWindowSize - MEM_WINDOW_MIN_SIZE) []
    nextState := s.inputsBuffer.getD (s.netInputWindowSize - 1) [] }

/-- Method `Agent.backward` (`agent.ts` lines 124-141): record the accumulated
reward, increment `age`, then (when learning with enough history) remember
a memento and (when the store is large enough) trigger `replay`. -/
def backward (s : AgentState) : Except String (AgentState × BackwardEvents) :=
  let s := { s with rewardsHistory := s.rewardsHistory.add s.currentReward }
  let s := { s with track.age := s.track.age + 1 }
  if !s.track.learning ∨ s.track.forwardPasses ≤ s.config.temporalWindow + 1 then
    Except.ok (s, { remembered := none, fitCall := none })
  else
    let m : Memento := backwardMemento s
    let s := { s with memory := s.memory.remember m }
    if s.memory.length ≤ s.config.learningConfig.learningStepsRandom then
      Except.ok (s, { remembered := some m, fitCall := none })
    else
      match replay s with
      | Except.ok (s', fc) => Except.ok (s', { remembered := some m, fitCall := some fc })
      | Except.error e => Except.error e

/-- The continuation attached to the dispatched fit (`agent.ts` lines
150-153): on resolution append `result.history.loss[0]` to the losses
window; on rejection throw `new Error("Unable to realize fit correctly")`
— the rejection is re-raised, not swallowed and not retried. -/
def applyFitResolution (s : AgentState) (outcome : Except String FitResult) :
    Except String AgentState :=
  match outcome with
  | Except.ok result =>
    Except.ok { s with lossesHistory := s.lossesHistory.add (result.loss.headD 0) }
  | Except.error _ => Except.error "Unable to realize fit correctly"

/-- Method `Agent.addReward` (`agent.ts` lines 168-170). -/
def addReward (s : AgentState) (value : ℚ) : AgentState :=
  { s with currentReward := s.currentReward + value }

/-- Method `Agent.setReward` (`agent.ts` lines 172-174). -/
def setReward (s : AgentState) (value : ℚ) : AgentState :=
  { s with currentReward := value }

/-- One externally invokable operation of the agent, with its oracle data. -/
inductive Step where
  | fwd (input : Tensor) (r : ℚ) (randomAction : Nat)
  | bwd
  | addR (value : ℚ)
  | setR (value : ℚ)
  | fitOk (result : FitResult)
  deriving Repr

/-- Apply one operation to the agent state. -/
def runStep (s : AgentState) : Step → Except String AgentState
  | Step.fwd input r a => Except.ok (forward s input r a).2
  | Step.bwd => (backward s).map (fun p => p.1)
  | Step.addR v => Except.ok (addReward s v)
  | Step.setR v => Except.ok (setReward s v)
  | Step.fitOk result => applyFitResolution s (Except.ok result)

/-- Run a sequence of operations; a thrown exception aborts the run. -/
def run (s : AgentState) : List Step → Except String AgentState
  | [] => Except.ok s
  | st :: rest =>
    match runStep s st with
    | Except.ok s' => run s' rest
    | Except.error e => Except.error e

end ReImprove

namespace ReImprove

/-! ## Generic list helpers -/

lemma getD_set_self (l : List ℚ) (i : Nat) (v : ℚ) (h : i < l.length) :
    (l.set i v).getD i 0 = v := by
  simp [List.getD_eq_getElem?_getD, List.getElem?_eq_getElem, h]

lemma getD_set_ne (l : List ℚ) (i k : Nat) (v : ℚ) (h : k ≠ i) :
    (l.set i v).getD k 0 = l.getD k 0 := by
  simp [List.getD_eq_getElem?_getD, List.getElem?_set_ne (Ne.symm h)]

lemma getD_oneHotRow (n a j : Nat) (h : j < n) :
    (oneHotRow n a).getD j 0 = if j = a then (1 : ℚ) else 0 := by
  have hr : (List.range n)[j]? = some j := by
    rw [List.getElem?_eq_getElem (by simpa using h)]
    simp
  simp [oneHotRow, List.getD_eq_getElem?_getD, hr]

lemma foldl_append2_eq_flatten (g h : Nat → List ℚ) (init : List ℚ) (k : Nat) :
    (List.range k).foldl (fun acc i => acc ++ g i ++ h i) init =
      init ++ ((List.range k).map (fun i => g i ++ h i)).flatten := by
  induction k with
  | zero => simp
  | succ k ih =>
    rw [List.range_succ, List.foldl_append, ih]
    simp [List.range_succ, List.append_assoc]

/-! ## Epsilon decay in `forward` -/

lemma forward_epsilon (s : AgentState) (input : Tensor) (r : ℚ) (a : Nat) :
    ((forward s input r a).2).config.learningConfig.epsilon =
      if s.track.age < s.config.learningConfig.learningTime ∧
          s.config.learningConfig.learningStepsRandom < s.track.age ∧
          s.config.learningConfig.epsilonMin < s.config.learningConfig.epsilon then
        s.config.learningConfig.epsilon * s.config.learningConfig.epsilonDecay
      else s.config.learningConfig.epsilon := by
  by_cases h1 : s.track.age < s.config.learningConfig.learningTime
  · by_cases h2 : s.config.learningConfig.learningStepsRandom < s.track.age ∧
        s.config.learningConfig.epsilonMin < s.config.learningConfig.epsilon
    · simp [forward, h1, h2]
    · simp [forward, h1, h2]
  · simp [forward, h1]

lemma forward_static (s : AgentState) (input : Tensor) (r : ℚ) (a : Nat) :
    ((forward s input r a).2).done = s.done ∧
    ((forward s input r a).2).track.age = s.track.age ∧
    ((forward s input r a).2).track.forwardPasses = s.track.forwardPasses + 1 ∧
    ((forward s input r a).2).config.learningConfig.epsilonDecay =
      s.config.learningConfig.epsilonDecay ∧
    ((forward s input r a).2).config.learningConfig.epsilonMin =
      s.config.learningConfig.epsilonMin := by
  by_cases h1 : s.track.age < s.config.learningConfig.learningTime
  · by_cases h2 : s.config.learningConfig.learningStepsRandom < s.track.age ∧
        s.config.learningConfig.epsilonMin < s.config.learningConfig.epsilon
    · simp [forward, h1, h2]
    · simp [forward, h1, h2]
  · simp [forward, h1]

/-- C3: on every `forward` call, epsilon is multiplied by `epsilonDecay`
exactly once when `age < learningTime`, `age > learningStepsRandom` and
`epsilon > epsilonMin` all hold at the time of the call, and is left
unchanged under any other combination of these conditions. -/
theorem claim_C3 (s : AgentState) (input : Tensor) (r : ℚ) (a : Nat) :
    ((forward s input r a).2).config.learningConfig.epsilon =
      if s.track.age < s.config.learningConfig.learningTime ∧
          s.config.learningConfig.learningStepsRandom < s.track.age ∧
          s.config.learningConfig.epsilonMin < s.config.learningConfig.epsilon then
        s.config.learningConfig.epsilon * s.config.learningConfig.epsilonDecay
      else s.config.learningConfig.epsilon :=
  forward_epsilon s input r a

/-- C9: the continuation attached to the dispatched fit re-raises a
rejection as the fatal error "Unable to realize fit correctly" (never
swallowed, never retried, no state survives it), and on successful
resolution appends the reported `history.loss[0]` to the loss window. -/
theorem claim_C9 (s : AgentState) :
    (∀ e, applyFitResolution s (Except.error e) =
        Except.error "Unable to realize fit correctly") ∧
    (∀ result, applyFitResolution s (Except.ok result) =
        Except.ok { s with lossesHistory := s.lossesHistory.add (result.loss.headD 0) }) := by
  constructor
  · intro e; rfl
  · intro result; rfl

/-- C1: `createInOutFromMemento` returns `x = memento.state` and a label
vector `y` with `y[action] = target` exactly and `y[k] = predict(state)[k]`
for every other in-range `k`, where `target = reward` when the episode is
flagged done and `target = reward + gamma * maxOverActions(predict(nextState))`
otherwise. -/
theorem claim_C1 (s : AgentState) (m : Memento)
    (h : m.action < (s.model.predict m.state).length) :
    (createInOutFromMemento s m).1 = m.state ∧
    ((createInOutFromMemento s m).2).length = (s.model.predict m.state).length ∧
    ((createInOutFromMemento s m).2).getD m.action 0 =
      (if s.done then m.reward
       else m.reward +
         s.config.learningConfig.gamma * listMax (s.model.predict m.nextState)) ∧
    (∀ k, k < (s.model.predict m.state).length → k ≠ m.action →
      ((createInOutFromMemento s m).2).getD k 0 = (s.model.predict m.state).getD k 0) := by
  cases hdone : s.done with
  | false =>
    have hy : (createInOutFromMemento s m).2 =
        (s.model.predict m.state).set m.action
          (m.reward + s.config.learningConfig.gamma * listMax (s.model.predict m.nextState)) := by
      simp [createInOutFromMemento, hdone]
    refine ⟨rfl, ?_, ?_, ?_⟩
    · rw [hy]; simp
    · rw [hy, getD_set_self _ _ _ h]; simp [hdone]
    · intro k _ hk
      rw [hy, getD_set_ne _ _ _ _ hk]
  | true =>
    have hy : (createInOutFromMemento s m).2 =
        (s.model.predict m.state).set m.action m.reward := by
      simp [createInOutFromMemento, hdone]
    refine ⟨rfl, ?_, ?_, ?_⟩
    · rw [hy]; simp
    · rw [hy, getD_set_self _ _ _ h]; simp [hdone]
    · intro k _ hk
      rw [hy, getD_set_ne _ _ _ _ hk]

end ReImprove

namespace ReImprove

/-! ## Concrete instances used to witness the theorems -/

/-- A concrete model: three actions, constant prediction `[1/5, 1/2, 1/10]`
(the value vector of the spec's worked example). -/
def demoModel : Model :=
  { outputSize := 3, predict := fun _ => [1/5, 1/2, 1/10] }

/-- A concrete learning configuration (the spec's example values). -/
def demoLC : LearningConfig :=
  { gamma := 9/10, epsilon := 1, epsilonDecay := 99/100, epsilonMin := 1/10,
    learningRate := 1/100, learningTime := 1000, learningStepsRandom := 5 }

/-- A concrete agent configuration with no temporal window. -/
def demoConfig : AgentConfig :=
  { memorySize := 10, batchSize := 1, temporalWindow := 0, learningConfig := demoLC }

/-- A concrete agent configuration with a temporal window of 2. -/
def demoConfigTW2 : AgentConfig :=
  { memorySize := 10, batchSize := 1, temporalWindow := 2, learningConfig := demoLC }

/-- The memento of the spec's worked Bellman example: `reward = 1`,
`action = 1`, prediction max `1/2`, `gamma = 9/10`, target `29/20`. -/
def c1Memento : Memento :=
  { action := 1, reward := 1, state := [3], nextState := [4] }

/-- Witness for C1 at a concrete agent and memento: the corrected entry of
the label vector is exactly `1 + 9/10 * (1/2) = 29/20`. -/
theorem claim_C1_witness :
    c1Memento.action < ((initAgent demoModel demoConfig).model.predict c1Memento.state).length ∧
    ((createInOutFromMemento (initAgent demoModel demoConfig) c1Memento).2).getD 1 0 = 29/20 := by
  refine ⟨by decide, ?_⟩
  have h := (claim_C1 (initAgent demoModel demoConfig) c1Memento (by decide)).2.2.1
  refine h.trans ?_
  norm_num [initAgent, demoModel, demoConfig, demoLC, c1Memento, listMax, max_def]

/-- C5: on a `forward` call in the warm-up region — `forwardPasses ≤
temporalWindow`, where `forwardPasses` is the counter's value during the
call, after its increment at entry — the returned action is exactly the
`randomOutput()` oracle value (whatever the uniform draw and the greedy
policy would say), and the encoded input recorded in the inputs buffer for
this step is the empty tensor. -/
theorem claim_C5 (s : AgentState) (input : Tensor) (r : ℚ) (a : Nat)
    (h : s.track.forwardPasses + 1 ≤ s.config.temporalWindow) :
    (forward s input r a).1 = a ∧
    ((forward s input r a).2).inputsBuffer = s.inputsBuffer.drop 1 ++ [([] : Tensor)] := by
  have hnot : ¬ s.config.temporalWindow < s.track.forwardPasses + 1 := Nat.not_lt.mpr h
  by_cases h1 : s.track.age < s.config.learningConfig.learningTime
  · by_cases h2 : s.config.learningConfig.learningStepsRandom < s.track.age ∧
        s.config.learningConfig.epsilonMin < s.config.learningConfig.epsilon
    · simp [forward, h1, h2, hnot]
    · simp [forward, h1, h2, hnot]
  · simp [forward, h1, hnot]

/-- Witness for C5: a fresh agent with `temporalWindow = 2` returns the
random-oracle action `2` on its first forward pass. -/
theorem claim_C5_witness :
    (initAgent demoModel demoConfigTW2).track.forwardPasses + 1 ≤
      demoConfigTW2.temporalWindow ∧
    (forward (initAgent demoModel demoConfigTW2) [7] (1/2) 2).1 = 2 :=
  ⟨by decide, (claim_C5 (initAgent demoModel demoConfigTW2) [7] (1/2) 2 (by decide)).1⟩

/-- C7: the encoded model input is the current observation followed, for
`i = 0 .. temporalWindow-1` in that order, by the state stored at buffer
position `netInputWindowSize-1-i` immediately followed by a one-hot vector
of length `OutputSize` holding `1.0` at the stored action's index and
`0.0` elsewhere, all concatenated along the feature axis; the original
observation is not mutated — the encoder works on a copy, and the
observation survives unchanged as the prefix of the result. -/
theorem claim_C7 (s : AgentState) (input : Tensor) :
    createNeuralNetInput s input =
      input ++
        ((List.range s.config.temporalWindow).map
          (fun i =>
            s.statesBuffer.getD (s.netInputWindowSize - 1 - i) [] ++
              oneHotRow s.model.outputSize
                (s.actionsBuffer.getD (s.netInputWindowSize - 1 - i) 0))).flatten ∧
    (∀ i j, j < s.model.outputSize →
        (oneHotRow s.model.outputSize
            (s.actionsBuffer.getD (s.netInputWindowSize - 1 - i) 0)).getD j 0 =
          if j = s.actionsBuffer.getD (s.netInputWindowSize - 1 - i) 0 then (1 : ℚ) else 0) ∧
    (createNeuralNetInput s input).take input.length = input := by
  have hmain : createNeuralNetInput s input =
      input ++
        ((List.range s.config.temporalWindow).map
          (fun i =>
            s.statesBuffer.getD (s.netInputWindowSize - 1 - i) [] ++
              oneHotRow s.model.outputSize
                (s.actionsBuffer.getD (s.netInputWindowSize - 1 - i) 0))).flatten :=
    foldl_append2_eq_flatten
      (fun i => s.statesBuffer.getD (s.netInputWindowSize - 1 - i) [])
      (fun i => oneHotRow s.model.outputSize (s.actionsBuffer.getD (s.netInputWindowSize - 1 - i) 0))
      input s.config.temporalWindow
  refine ⟨hmain, ?_, ?_⟩
  · intro i j hj
    exact getD_oneHotRow _ _ _ hj
  · rw [hmain]
    exact List.take_left input _

/-- Witness for C7: evaluated on a fresh agent with a window of two steps,
the observation `[9, 8]` survives as the prefix of the encoded input, and
the one-hot slot `1` of the stored action `0` is `0`. -/
theorem claim_C7_witness :
    (createNeuralNetInput (initAgent demoModel demoConfigTW2) [9, 8]).take 2 = [9, 8] ∧
    (oneHotRow (initAgent demoModel demoConfigTW2).model.outputSize
        ((initAgent demoModel demoConfigTW2).actionsBuffer.getD
          ((initAgent demoModel demoConfigTW2).netInputWindowSize - 1 - 0) 0)).getD 1 0 = 0 := by
  constructor
  · exact (claim_C7 (initAgent demoModel demoConfigTW2) [9, 8]).2.2
  · have h := (claim_C7 (initAgent demoModel demoConfigTW2) [9, 8]).2.1 0 1 (by decide)
    exact h.trans (by decide)

end ReImprove

namespace ReImprove

/-! ## Behaviour of `backward` and `replay` -/

lemma replay_ok_state (s s' : AgentState) (fc : FitCall)
    (h : replay s = Except.ok (s', fc)) : s' = { s with currentReward := 0 } := by
  simp only [replay] at h
  split at h
  · exact absurd h (by simp)
  · simp only [Except.ok.injEq, Prod.mk.injEq] at h
    exact h.1.symm

lemma backward_ok_inv (s s' : AgentState) (ev : BackwardEvents)
    (h : backward s = Except.ok (s', ev)) :
    s'.config = s.config ∧ s'.done = s.done ∧ s'.model = s.model ∧
    s'.track.age = s.track.age + 1 ∧
    s'.track.forwardPasses = s.track.forwardPasses ∧
    s'.track.learning = s.track.learning ∧
    s'.rewardsHistory = s.rewardsHistory.add s.currentReward ∧
    s'.lossesHistory = s.lossesHistory ∧
    s'.netInputWindowSize = s.netInputWindowSize := by
  simp only [backward] at h
  split at h
  · simp only [Except.ok.injEq, Prod.mk.injEq] at h
    obtain ⟨h1, h2⟩ := h
    subst h1
    simp
  · split at h
    · simp only [Except.ok.injEq, Prod.mk.injEq] at h
      obtain ⟨h1, h2⟩ := h
      subst h1
      simp
    · split at h
      case h_1 p fc heq =>
        simp only [Except.ok.injEq, Prod.mk.injEq] at h
        obtain ⟨h1, h2⟩ := h
        subst h1
        rw [replay_ok_state _ _ _ heq]
        simp
      case h_2 e heq => exact absurd h (by simp)

/-- C6: every non-throwing `backward` call records the accumulated reward
into the reward window and increments `age` by one; it hands a memento to
`remember` exactly when `learning` is true and `forwardPasses >
temporalWindow + 1`, and it dispatches a `replay` fit exactly when
additionally the experience store's size (after the insertion) exceeds
`learningStepsRandom`; with `learning` false it never remembers nor
replays. -/
theorem claim_C6 (s s' : AgentState) (ev : BackwardEvents)
    (h : backward s = Except.ok (s', ev)) :
    s'.rewardsHistory = s.rewardsHistory.add s.currentReward ∧
    s'.track.age = s.track.age + 1 ∧
    (ev.remembered.isSome = true ↔
      s.track.learning = true ∧ s.config.temporalWindow + 1 < s.track.forwardPasses) ∧
    (ev.fitCall.isSome = true ↔
      s.track.learning = true ∧ s.config.temporalWindow + 1 < s.track.forwardPasses ∧
        s.config.learningConfig.learningStepsRandom <
          (s.memory.remember (backwardMemento s)).length) ∧
    (s.track.learning = false → ev = { remembered := none, fitCall := none }) := by
  obtain ⟨-, -, -, hage, -, -, hrew, -, -⟩ := backward_ok_inv s s' ev h
  refine ⟨hrew, hage, ?_⟩
  simp only [backward, backwardMemento] at h
  split at h
  case isTrue hc =>
    simp only [Except.ok.injEq, Prod.mk.injEq] at h
    obtain ⟨h1, h2⟩ := h
    subst h2
    simp at hc
    refine ⟨?_, ?_, fun _ => rfl⟩
    · simp only [Option.isSome_none, Bool.false_eq_true, false_iff]
      rintro ⟨hl, hf⟩
      rcases hc with hc | hc
      · rw [hl] at hc; exact Bool.noConfusion hc
      · omega
    · simp only [Option.isSome_none, Bool.false_eq_true, false_iff]
      rintro ⟨hl, hf, -⟩
      rcases hc with hc | hc
      · rw [hl] at hc; exact Bool.noConfusion hc
      · omega
  case isFalse hc =>
    rw [not_or] at hc
    obtain ⟨hcl, hcf⟩ := hc
    simp at hcl hcf
    simp only [backwardMemento, List.getD_eq_getElem?_getD]
    split at h
    case isTrue hlen =>
      simp only [Except.ok.injEq, Prod.mk.injEq] at h
      obtain ⟨h1, h2⟩ := h
      subst h2
      simp at hlen
      refine ⟨by simp [hcl, hcf], ?_, ?_⟩
      · simp only [Option.isSome_none, Bool.false_eq_true, false_iff]
        rintro ⟨-, -, hgt⟩
        omega
      · intro hl0; rw [hl0] at hcl; exact Bool.noConfusion hcl
    case isFalse hlen =>
      simp at hlen
      split at h
      case h_1 p fc2 heq =>
        simp only [Except.ok.injEq, Prod.mk.injEq] at h
        obtain ⟨h1, h2⟩ := h
        subst h2
        refine ⟨by simp [hcl, hcf], by simp [hcl, hcf, hlen], ?_⟩
        intro hl0; rw [hl0] at hcl; exact Bool.noConfusion hcl
      case h_2 e heq => exact absurd h (by simp)

end ReImprove

namespace ReImprove

/-- C2 (amended): whenever a non-throwing `backward` call stores an
experience, the `Memento` handed to `remember` has its `action` taken from
position `netInputWindowSize - 2` of the action buffer, its `reward` equal
to the agent's currently accumulated reward, its `state` equal to the
encoded input at position `netInputWindowSize - 2`, and its `nextState`
equal to the encoded input at the last position, `netInputWindowSize - 1`. -/
theorem claim_C2_amended (s s' : AgentState) (ev : BackwardEvents) (m : Memento)
    (h : backward s = Except.ok (s', ev)) (hm : ev.remembered = some m) :
    m.action = s.actionsBuffer.getD (s.netInputWindowSize - 2) 0 ∧
    m.reward = s.currentReward ∧
    m.state = s.inputsBuffer.getD (s.netInputWindowSize - 2) [] ∧
    m.nextState = s.inputsBuffer.getD (s.netInputWindowSize - 1) [] := by
  simp only [backward, backwardMemento] at h
  split at h
  case isTrue hc =>
    simp only [Except.ok.injEq, Prod.mk.injEq] at h
    obtain ⟨h1, h2⟩ := h
    subst h2
    exact absurd hm (by simp)
  case isFalse hc =>
    split at h
    case isTrue hlen =>
      simp only [Except.ok.injEq, Prod.mk.injEq] at h
      obtain ⟨h1, h2⟩ := h
      subst h2
      simp only [BackwardEvents.remembered, Option.some.injEq] at hm
      subst hm
      simp [MEM_WINDOW_MIN_SIZE]
    case isFalse hlen =>
      split at h
      case h_1 p fc2 heq =>
        simp only [Except.ok.injEq, Prod.mk.injEq] at h
        obtain ⟨h1, h2⟩ := h
        subst h2
        simp only [BackwardEvents.remembered, Option.some.injEq] at hm
        subst hm
        simp [MEM_WINDOW_MIN_SIZE]
      case h_2 e heq => exact absurd h (by simp)

/-! ## Concrete run for C2/C6: a learning agent with accumulated reward 5
whose relevant action-buffer entry is 0. -/

/-- An agent two forward passes in (with `temporalWindow = 0`), accumulated
reward `5`, action buffer `[0, 7]`. -/
def c2State : AgentState :=
  { initAgent demoModel demoConfig with
      track := { age := 0, forwardPasses := 2, learning := true,
                 averageLoss := 0, averageReward := 0 }
      currentReward := 5
      actionsBuffer := [0, 7] }

/-- The state/events pair produced by `backward` on `c2State`. -/
def c2ResultPair : AgentState × BackwardEvents :=
  ((backward c2State).toOption).getD (c2State, { remembered := none, fitCall := none })

/-- The memento remembered by `backward` on `c2State`. -/
def c2Mem : Memento :=
  (c2ResultPair.2.remembered).getD { action := 0, reward := 0, state := [], nextState := [] }

/-- Counterexample to C2 as stated: on `c2State`, `backward` stores a
memento whose reward is the accumulated reward `5`, while position
`netInputWindowSize - 2` of the action buffer holds `0` — the reward is
not taken from the action buffer. -/
theorem claim_C2_counterexample :
    ((backward c2State).toOption.map (fun p => p.2.remembered.map Memento.reward)) =
      some (some 5) ∧
    ((c2State.actionsBuffer.getD (c2State.netInputWindowSize - 2) 0 : Nat) : ℚ) = 0 ∧
    (5 : ℚ) ≠ 0 := by
  refine ⟨rfl, ?_, by norm_num⟩
  norm_num [c2State, initAgent, demoConfig, MEM_WINDOW_MIN_SIZE]

/-- Witness for the amended C2 at `c2State`: the remembered memento's
reward is the accumulated reward and its action is the buffer entry. -/
theorem claim_C2_witness :
    c2Mem.reward = c2State.currentReward ∧
    c2Mem.action = c2State.actionsBuffer.getD (c2State.netInputWindowSize - 2) 0 := by
  have h := claim_C2_amended c2State c2ResultPair.1 c2ResultPair.2 c2Mem rfl rfl
  exact ⟨h.2.1, h.1⟩

/-- Witness for C6 at `c2State`: the reward window receives the
accumulated reward and `age` is incremented. -/
theorem claim_C6_witness :
    c2ResultPair.1.rewardsHistory = c2State.rewardsHistory.add c2State.currentReward ∧
    c2ResultPair.1.track.age = c2State.track.age + 1 := by
  have h := claim_C6 c2State c2ResultPair.1 c2ResultPair.2 rfl
  exact ⟨h.1, h.2.1⟩

end ReImprove

namespace ReImprove

lemma foldl_pairConcat (f g : Memento → Tensor) (l : List Memento)
    (acc : List Tensor × List Tensor) :
    (l.map (fun m => (([f m] : List Tensor), ([g m] : List Tensor)))).foldl
        (fun prev cur => (prev.1 ++ cur.1, prev.2 ++ cur.2)) acc =
      (acc.1 ++ l.map f, acc.2 ++ l.map g) := by
  induction l generalizing acc with
  | nil => simp
  | cons x xs ih => simp [ih]

/-- C8: with `0 < batchSize ≤ ` the store's size, a triggered `replay`
samples exactly `batchSize` mementos, concatenates their training pairs
into one batch preserving sample order, dispatches exactly one fit call
with one epoch and one step per epoch, and the state it returns
synchronously — before the asynchronous fit resolves — already has the
accumulated reward reset to zero while the loss window is still untouched. -/
theorem claim_C8 (s : AgentState)
    (h1 : 0 < s.config.batchSize)
    (h2 : s.config.batchSize ≤ s.memory.length) :
    (s.memory.sample s.config.batchSize).length = s.config.batchSize ∧
    replay s =
      Except.ok
        ({ s with currentReward := 0 },
         { x := (s.memory.sample s.config.batchSize).map
              (fun m => (createInOutFromMemento s m).1)
           y := (s.memory.sample s.config.batchSize).map
              (fun m => (createInOutFromMemento s m).2)
           epochs := 1
           stepsPerEpoch := 1 }) := by
  have hlen : (s.memory.sample s.config.batchSize).length = s.config.batchSize := by
    simp only [Memory.sample, Memory.length] at h2 ⊢
    simp [List.length_take]
    omega
  refine ⟨hlen, ?_⟩
  obtain ⟨hd, tl, hbatch⟩ : ∃ hd tl, s.memory.sample s.config.batchSize = hd :: tl := by
    cases hb : s.memory.sample s.config.batchSize with
    | nil => rw [hb] at hlen; simp at hlen; omega
    | cons a l => exact ⟨a, l, rfl⟩
  simp only [replay, hbatch, List.map_cons, foldl_pairConcat]
  simp

/-- A concrete agent whose store holds two mementos and whose batch size
is two. -/
def c8State : AgentState :=
  { initAgent demoModel
      { memorySize := 10, batchSize := 2, temporalWindow := 0, learningConfig := demoLC } with
      memory :=
        { memorySize := 10
          mementos :=
            [{ action := 0, reward := 1, state := [3], nextState := [4] },
             { action := 1, reward := 2, state := [5], nextState := [6] }] } }

/-- Witness for C8 at `c8State`: with batch size `2` and two stored
transitions, the sampled batch has length exactly `2`. -/
theorem claim_C8_witness :
    0 < c8State.config.batchSize ∧
    (c8State.memory.sample c8State.config.batchSize).length = c8State.config.batchSize :=
  ⟨by decide, (claim_C8 c8State (by decide) (by decide)).1⟩

end ReImprove

namespace ReImprove

/-! ## Step and run invariants -/

lemma runStep_ok_inv (s s' : AgentState) (st : Step)
    (h : runStep s st = Except.ok s') :
    s'.done = s.done ∧
    s'.config.learningConfig.epsilonDecay = s.config.learningConfig.epsilonDecay ∧
    s'.config.learningConfig.epsilonMin = s.config.learningConfig.epsilonMin ∧
    (s.config.learningConfig.epsilonDecay ≤ 1 →
     0 < s.config.learningConfig.epsilonDecay →
     0 < s.config.learningConfig.epsilonMin →
     s'.config.learningConfig.epsilon ≤ s.config.learningConfig.epsilon ∧
     (s.config.learningConfig.epsilonMin * s.config.learningConfig.epsilonDecay ≤
        s.config.learningConfig.epsilon →
      s.config.learningConfig.epsilonMin * s.config.learningConfig.epsilonDecay ≤
        s'.config.learningConfig.epsilon)) := by
  cases st with
  | fwd input r a =>
    simp only [runStep, Except.ok.injEq] at h
    subst h
    obtain ⟨hdone, -, -, hdk, hmn⟩ := forward_static s input r a
    refine ⟨hdone, hdk, hmn, ?_⟩
    intro h1 h0 hm
    rw [forward_epsilon]
    split
    case isTrue hc =>
      constructor
      · exact mul_le_of_le_one_right (le_of_lt (lt_trans hm hc.2.2)) h1
      · intro hlb
        exact mul_le_mul_of_nonneg_right (le_of_lt hc.2.2) (le_of_lt h0)
    case isFalse hc => exact ⟨le_refl _, fun hlb => hlb⟩
  | bwd =>
    simp only [runStep] at h
    cases hb : backward s with
    | error e => rw [hb] at h; simp [Except.map] at h
    | ok p =>
      rw [hb] at h
      simp [Except.map] at h
      subst h
      obtain ⟨hcfg, hdone, -, -, -, -, -, -, -⟩ := backward_ok_inv s p.1 p.2 (by rw [hb])
      refine ⟨hdone, by rw [hcfg], by rw [hcfg], ?_⟩
      intro h1 h0 hm
      rw [hcfg]
      exact ⟨le_refl _, fun hlb => hlb⟩
  | addR v =>
    simp only [runStep, addReward, Except.ok.injEq] at h
    subst h
    exact ⟨rfl, rfl, rfl, fun _ _ _ => ⟨le_refl _, fun x => x⟩⟩
  | setR v =>
    simp only [runStep, setReward, Except.ok.injEq] at h
    subst h
    exact ⟨rfl, rfl, rfl, fun _ _ _ => ⟨le_refl _, fun x => x⟩⟩
  | fitOk res =>
    simp only [runStep, applyFitResolution, Except.ok.injEq] at h
    subst h
    exact ⟨rfl, rfl, rfl, fun _ _ _ => ⟨le_refl _, fun x => x⟩⟩

lemma run_ok_inv (steps : List Step) : ∀ s s' : AgentState,
    run s steps = Except.ok s' →
    s'.done = s.done ∧
    s'.config.learningConfig.epsilonDecay = s.config.learningConfig.epsilonDecay ∧
    s'.config.learningConfig.epsilonMin = s.config.learningConfig.epsilonMin ∧
    (s.config.learningConfig.epsilonDecay ≤ 1 →
     0 < s.config.learningConfig.epsilonDecay →
     0 < s.config.learningConfig.epsilonMin →
     s'.config.learningConfig.epsilon ≤ s.config.learningConfig.epsilon ∧
     (s.config.learningConfig.epsilonMin * s.config.learningConfig.epsilonDecay ≤
        s.config.learningConfig.epsilon →
      s.config.learningConfig.epsilonMin * s.config.learningConfig.epsilonDecay ≤
        s'.config.learningConfig.epsilon)) := by
  induction steps with
  | nil =>
    intro s s' h
    simp only [run, Except.ok.injEq] at h
    subst h
    exact ⟨rfl, rfl, rfl, fun _ _ _ => ⟨le_refl _, fun x => x⟩⟩
  | cons st rest ih =>
    intro s s' h
    simp only [run] at h
    split at h
    case h_1 s1 heq =>
      obtain ⟨a1, a2, a3, a4⟩ := runStep_ok_inv s s1 st heq
      obtain ⟨b1, b2, b3, b4⟩ := ih s1 s' h
      refine ⟨b1.trans a1, b2.trans a2, b3.trans a3, ?_⟩
      intro h1 h0 hm
      have A4 := a4 h1 h0 hm
      have B4 := b4 (by rw [a2]; exact h1) (by rw [a2]; exact h0) (by rw [a3]; exact hm)
      constructor
      · exact le_trans B4.1 A4.1
      · intro hlb
        have heqp : s1.config.learningConfig.epsilonMin * s1.config.learningConfig.epsilonDecay =
            s.config.learningConfig.epsilonMin * s.config.learningConfig.epsilonDecay := by
          rw [a2, a3]
        have h1' : s1.config.learningConfig.epsilonMin * s1.config.learningConfig.epsilonDecay ≤
            s1.config.learningConfig.epsilon := by
          rw [heqp]; exact A4.2 hlb
        have h2' := B4.2 h1'
        rw [heqp] at h2'
        exact h2'
    case h_2 e heq => exact absurd h (by simp)

end ReImprove

namespace ReImprove

/-- C4 (amended): with `0 < epsilonDecay ≤ 1` and `0 < epsilonMin`, over
any sequence of agent operations epsilon is non-increasing and never falls
below `epsilonMin * epsilonDecay` once it is at least that value (a decay
step fires only while `epsilon > epsilonMin`); and no decay occurs on a
forward call made while `age ≤ learningStepsRandom` or `age ≥
learningTime`. -/
theorem claim_C4_amended (s : AgentState)
    (hd0 : 0 < s.config.learningConfig.epsilonDecay)
    (hd1 : s.config.learningConfig.epsilonDecay ≤ 1)
    (hm : 0 < s.config.learningConfig.epsilonMin) :
    (∀ steps s', run s steps = Except.ok s' →
        s'.config.learningConfig.epsilon ≤ s.config.learningConfig.epsilon ∧
        (s.config.learningConfig.epsilonMin * s.config.learningConfig.epsilonDecay ≤
            s.config.learningConfig.epsilon →
         s.config.learningConfig.epsilonMin * s.config.learningConfig.epsilonDecay ≤
            s'.config.learningConfig.epsilon)) ∧
    (∀ input r a, s.track.age ≤ s.config.learningConfig.learningStepsRandom ∨
          s.config.learningConfig.learningTime ≤ s.track.age →
        ((forward s input r a).2).config.learningConfig.epsilon =
          s.config.learningConfig.epsilon) := by
  constructor
  · intro steps s' h
    exact (run_ok_inv steps s s' h).2.2.2 hd1 hd0 hm
  · intro input r a hage
    rw [forward_epsilon, if_neg]
    rintro ⟨hlt, hgt, -⟩
    rcases hage with hage | hage
    · omega
    · omega

/-- Counterexample scenario A for C4: `epsilonDecay = 2 > 0`, decay active. -/
def c4aState : AgentState :=
  { initAgent demoModel demoConfig with
      config := { demoConfig with learningConfig := { demoLC with epsilonDecay := 2 } }
      track := { age := 6, forwardPasses := 0, learning := true,
                 averageLoss := 0, averageReward := 0 } }

/-- Counterexample scenario B for C4: `epsilon = 11/100` just above
`epsilonMin = 1/10`, `epsilonDecay = 1/2`. -/
def c4bState : AgentState :=
  { initAgent demoModel demoConfig with
      config := { demoConfig with learningConfig :=
        { demoLC with epsilon := 11/100, epsilonDecay := 1/2 } }
      track := { age := 6, forwardPasses := 0, learning := true,
                 averageLoss := 0, averageReward := 0 } }

/-- Counterexample to C4 as stated: with `0 < epsilonDecay` and
`0 < epsilonMin` alone, a single `forward` call can strictly increase
epsilon (`epsilonDecay = 2`), and a decay step can push epsilon strictly
below `epsilonMin` (`epsilon = 11/100`, `epsilonMin = 1/10`,
`epsilonDecay = 1/2` gives `11/200 < 1/10`). -/
theorem claim_C4_counterexample :
    (0 < c4aState.config.learningConfig.epsilonDecay ∧
     0 < c4aState.config.learningConfig.epsilonMin ∧
     c4aState.config.learningConfig.epsilon <
       ((forward c4aState [] 1 0).2).config.learningConfig.epsilon) ∧
    (0 < c4bState.config.learningConfig.epsilonDecay ∧
     0 < c4bState.config.learningConfig.epsilonMin ∧
     ((forward c4bState [] 1 0).2).config.learningConfig.epsilon <
       c4bState.config.learningConfig.epsilonMin) := by
  constructor
  · refine ⟨by norm_num [c4aState, demoConfig, demoLC],
      by norm_num [c4aState, demoConfig, demoLC], ?_⟩
    have h := forward_epsilon c4aState [] 1 0
    rw [if_pos] at h
    · rw [h]; norm_num [c4aState, demoConfig, demoLC]
    · refine ⟨?_, ?_, ?_⟩ <;> norm_num [c4aState, demoConfig, demoLC]
  · refine ⟨by norm_num [c4bState, demoConfig, demoLC],
      by norm_num [c4bState, demoConfig, demoLC], ?_⟩
    have h := forward_epsilon c4bState [] 1 0
    rw [if_pos] at h
    · rw [h]; norm_num [c4bState, demoConfig, demoLC]
    · refine ⟨?_, ?_, ?_⟩ <;> norm_num [c4bState, demoConfig, demoLC]

/-- The run used to witness C4: one forward pass of a fresh agent. -/
def c4wSteps : List Step := [Step.fwd [] 0 0]

/-- The state reached by the C4 witness run. -/
def c4wResult : AgentState :=
  ((run (initAgent demoModel demoConfig) c4wSteps).toOption).getD
    (initAgent demoModel demoConfig)

/-- Witness for the amended C4 on a concrete one-step run. -/
theorem claim_C4_witness :
    0 < (initAgent demoModel demoConfig).config.learningConfig.epsilonDecay ∧
    (initAgent demoModel demoConfig).config.learningConfig.epsilonDecay ≤ 1 ∧
    0 < (initAgent demoModel demoConfig).config.learningConfig.epsilonMin ∧
    c4wResult.config.learningConfig.epsilon ≤
      (initAgent demoModel demoConfig).config.learningConfig.epsilon := by
  refine ⟨by norm_num [initAgent, demoConfig, demoLC],
    by norm_num [initAgent, demoConfig, demoLC],
    by norm_num [initAgent, demoConfig, demoLC], ?_⟩
  exact ((claim_C4_amended (initAgent demoModel demoConfig)
    (by norm_num [initAgent, demoConfig, demoLC])
    (by norm_num [initAgent, demoConfig, demoLC])
    (by norm_num [initAgent, demoConfig, demoLC])).1 c4wSteps c4wResult rfl).1

/-- C10: the `done` flag starts false and no agent operation ever sets it,
so in every reachable state `createInOutFromMemento` takes the not-done
branch: the Bellman target always includes the discounted term
`gamma * maxOverActions(predict(nextState))`, never the bare reward. -/
theorem claim_C10 (model : Model) (config : AgentConfig) (steps : List Step)
    (s' : AgentState) (m : Memento)
    (h : run (initAgent model config) steps = Except.ok s') :
    s'.done = false ∧
    createInOutFromMemento s' m =
      (m.state,
       (s'.model.predict m.state).set m.action
         (m.reward + s'.config.learningConfig.gamma *
            listMax (s'.model.predict m.nextState))) := by
  have hdone : s'.done = false := by
    have hd := (run_ok_inv steps (initAgent model config) s' h).1
    simpa [initAgent] using hd
  exact ⟨hdone, by simp [createInOutFromMemento, hdone]⟩

/-- Witness for C10: the empty run from a fresh agent, whose `done` flag
is false. -/
theorem claim_C10_witness :
    run (initAgent demoModel demoConfig) [] =
      Except.ok (initAgent demoModel demoConfig) ∧
    (initAgent demoModel demoConfig).done = false :=
  ⟨rfl, (claim_C10 demoModel demoConfig [] (initAgent demoModel demoConfig)
      c1Memento rfl).1⟩

end ReImprove
